import Mathlib

set_option maxRecDepth 40000

/-!
A shallow embedding of the message-fetching core of the `discord-chat`
repository (`src/discord_chat/services/discord_client.py` and the channel
filtering step of `src/discord_chat/commands/digest.py`), together with
proofs of the specification claims about it.

Modelling conventions:
* Python strings are Lean `String`s; Python slicing `s[:n]` on a `str` is
  `String.take n` (both index by Unicode code points).
* `str.lower()` is modelled by `pyLower` and `str.strip()` by `pyStrip`
  (ASCII case folding and whitespace, kept kernel-reducible).
* `message.created_at.isoformat()` is carried as an opaque `String` field
  `created_at` on the raw message, since the claims only compare these
  strings.
* The `async for message in channel.history(...)` iterator is modelled as a
  list of `HistoryItem`s: the messages it yields in order, optionally
  terminated by the exception it raises (`discord.Forbidden` or
  `discord.HTTPException`).  The `try`/`except` in
  `_fetch_channel_messages` catches either exception after the loop body
  has already run for earlier items, so the accumulated messages survive.
* Fallible Python code raising exceptions is modelled with `Except String`.
-/

deriving instance DecidableEq for Except

namespace DiscordChat

/-- Python `s.lower()`, character by character (ASCII case folding, matching
the server and channel names the program compares). -/
def pyLower (s : String) : String := String.mk (s.data.map Char.toLower)

/-- Python `s.strip()`: drop whitespace from both ends. -/
def pyStrip (s : String) : String :=
  String.mk (((s.data.dropWhile Char.isWhitespace).reverse.dropWhile Char.isWhitespace).reverse)

/-- Whether the first list is a leading segment of the second. -/
def startsWithChars : List Char → List Char → Bool
  | [], _ => true
  | _ :: _, [] => false
  | a :: as, b :: bs => a == b && startsWithChars as bs

/-- Whether `needle` occurs contiguously in the second list (Python `in`). -/
def occursInChars (needle : List Char) : List Char → Bool
  | [] => needle.isEmpty
  | c :: cs => startsWithChars needle (c :: cs) || occursInChars needle cs

/-- A reaction on a raw Discord message: `r.emoji` (as `str(r.emoji)`) and
`r.count`. -/
structure RawReaction where
  emoji : String
  count : Nat
deriving Repr, DecidableEq

/-- A reaction dict as stored by `_fetch_channel_messages`:
`{"emoji": str(r.emoji)[:20], "count": r.count}`. -/
structure Reaction where
  emoji : String
  count : Nat
deriving Repr, DecidableEq

/-- A raw `discord.Message` as seen by `_fetch_channel_messages`: the fields
the loop body reads.  `attachments` carries the attachment filenames,
`created_at` the ISO-8601 timestamp string. -/
structure RawMessage where
  id : Nat
  author_name : String
  author_bot : Bool
  author_id : Nat
  content : String
  created_at : String
  attachments : List String
  reactions : List RawReaction
deriving Repr, DecidableEq

/-- The message dict built by the loop body of `_fetch_channel_messages`. -/
structure Message where
  id : Nat
  author : String
  author_id : Nat
  content : String
  timestamp : String
  attachments : List String
  reactions : List Reaction
deriving Repr, DecidableEq

/-- The `ChannelMessages` dataclass. -/
structure ChannelMessages where
  channel_name : String
  channel_id : Nat
  messages : List Message
deriving Repr, DecidableEq

/-- The `ServerDigestData` dataclass.  `start_time`/`end_time` are carried as
opaque ISO strings; no claim inspects them. -/
structure ServerDigestData where
  server_name : String
  server_id : Nat
  channels : List ChannelMessages
  start_time : String
  end_time : String
  total_messages : Nat
deriving Repr, DecidableEq

/-- The constant `DiscordMessageFetcher.MAX_MESSAGE_CONTENT_LENGTH = 100_000`. -/
def MAX_MESSAGE_CONTENT_LENGTH : Nat := 100000

/-- The two `continue` guards of the fetch loop: skip when
`message.author.bot`, or when `not message.content and not
message.attachments` (empty string and empty list are falsy). -/
def keepMessage (m : RawMessage) : Bool :=
  !m.author_bot && !(m.content == "" && m.attachments.isEmpty)

/-- The body of the fetch loop of `_fetch_channel_messages`
(`discord_client.py` lines 235-257): content truncation, attachment
capping with overflow marker, author-name capping, reaction capping with
emoji truncation. -/
def transformMessage (m : RawMessage) : Message :=
  let content :=
    if m.content.length > MAX_MESSAGE_CONTENT_LENGTH then
      m.content.take MAX_MESSAGE_CONTENT_LENGTH ++ "...[truncated]"
    else m.content
  let attachments := m.attachments.take 10
  let attachments :=
    if m.attachments.length > 10 then
      attachments ++ ["...and " ++ toString (m.attachments.length - 10) ++ " more"]
    else attachments
  { id := m.id
    author := m.author_name.take 100
    author_id := m.author_id
    content := content
    timestamp := m.created_at
    attachments := attachments
    reactions := (m.reactions.take 20).map (fun r => { emoji := r.emoji.take 20, count := r.count }) }

/-- A `discord.TextChannel` as read by `_fetch_channel_messages`. -/
structure TextChannel where
  name : String
  id : Nat
deriving Repr, DecidableEq

/-- One event of the `channel.history(...)` async iterator: a yielded raw
message, or the exception it raises (which ends the iteration). -/
inductive HistoryItem where
  | msg (m : RawMessage)
  | forbidden
  | httpError (s : String)
deriving Repr, DecidableEq

/-- Lexicographic `≤` on character lists by code point: exactly how Python
compares two `str` values. -/
def charListLe : List Char → List Char → Bool
  | [], _ => true
  | _ :: _, [] => false
  | a :: as, b :: bs =>
    if a.toNat = b.toNat then charListLe as bs else decide (a.toNat < b.toNat)

/-- Python string comparison `a <= b` (code-point lexicographic). -/
def strLeB (a b : String) : Bool := charListLe a.data b.data

/-- The relation form of `strLeB`, for use with `List.insertionSort`. -/
def strLeProp (a b : String) : Prop := strLeB a b = true

instance : DecidableRel strLeProp := fun a b => Bool.decEq (strLeB a b) true

/-- The comparison used by `sorted(messages, key=lambda m: m["timestamp"])`:
Python compares the string keys lexicographically by code point. -/
def timestampLe (a b : Message) : Prop := strLeB a.timestamp b.timestamp = true

instance : DecidableRel timestampLe :=
  fun a b => Bool.decEq (strLeB a.timestamp b.timestamp) true

/-- Python `sorted(messages, key=lambda m: m["timestamp"])`.  Python's sort
is stable, so its output is the unique permutation that is non-decreasing
on the key with ties in original order; `List.insertionSort` with a `≤`
comparison computes exactly that permutation. -/
def sortByTimestamp (l : List Message) : List Message :=
  List.insertionSort timestampLe l

/-- The accumulation loop of `_fetch_channel_messages`: each yielded raw
message is filtered and transformed; a raised `Forbidden` or
`HTTPException` stops the iteration, is caught by the surrounding
`try`/`except`, and leaves the messages accumulated so far intact. -/
def collectMessages : List HistoryItem → List Message
  | [] => []
  | .msg m :: rest =>
    if keepMessage m then transformMessage m :: collectMessages rest
    else collectMessages rest
  | .forbidden :: _ => []
  | .httpError _ :: _ => []

/-- Embeds `_fetch_channel_messages` (lines 207-282): run the accumulation loop on
the channel history, absorb any raised exception, and return the messages
sorted by timestamp.  Total: no exception propagates. -/
def fetch_channel_messages (channel : TextChannel) (history : List HistoryItem) :
    ChannelMessages :=
  { channel_name := channel.name
    channel_id := channel.id
    messages := sortByTimestamp (collectMessages history) }

/-- The raw messages the iterator yields before raising (all of them when it
raises nothing).  Characterizes what the loop accumulates. -/
def deliveredBefore : List HistoryItem → List RawMessage
  | [] => []
  | .msg m :: rest => m :: deliveredBefore rest
  | .forbidden :: _ => []
  | .httpError _ :: _ => []

/-- A `discord.Guild` as read by `_find_server_by_name`. -/
structure Guild where
  name : String
  id : Nat
deriving Repr, DecidableEq

/-- Python's substring test `needle in hay`. -/
def strContainsSub (hay needle : String) : Bool :=
  occursInChars needle.data hay.data

/-- Embeds `_find_server_by_name` (lines 179-205): first loop returns the first
case-insensitive exact match; second loop the first case-insensitive
substring match; otherwise `ServerNotFoundError` listing
`', '.join(available) or 'None'`. -/
def find_server_by_name (server_name : String) (guilds : List Guild) : Except String Guild :=
  let server_name_lower := pyLower server_name
  match guilds.find? (fun g => pyLower g.name == server_name_lower) with
  | some g => .ok g
  | none =>
    match guilds.find? (fun g => strContainsSub (pyLower g.name) server_name_lower) with
    | some g => .ok g
    | none =>
      let joined := String.intercalate ", " (guilds.map (fun g => g.name))
      .error ("Server '" ++ server_name ++ "' not found. Available servers: " ++
        (if joined = "" then "None" else joined))

/-- The orchestrator tail of `_fetch_server_messages_impl` (lines 388-399):
drop channels whose message list is empty and total the rest. -/
def mk_server_digest_data (server_name : String) (server_id : Nat)
    (channel_results : List ChannelMessages) (start_time end_time : String) :
    ServerDigestData :=
  let channels_with_messages := channel_results.filter (fun ch => !ch.messages.isEmpty)
  { server_name := server_name
    server_id := server_id
    channels := channels_with_messages
    start_time := start_time
    end_time := end_time
    total_messages := (channels_with_messages.map (fun ch => ch.messages.length)).sum }

/-- Python `s.lstrip("#")`: drop every leading `#`. -/
def pyLstripHash (s : String) : String :=
  String.mk (s.data.dropWhile (fun c => c == '#'))

/-- The channel-filtering step of the `digest` command
(`commands/digest.py` lines 248-268): keep only channels whose lowercased
name equals the requested name (lowercased, leading `#` stripped); fail
when none matches, listing the sorted available channel names; otherwise
rebuild `ServerDigestData` with a recomputed total. -/
def filter_digest_to_channel (data : ServerDigestData) (channel : String) :
    Except String ServerDigestData :=
  let channel_lower := pyLstripHash (pyLower channel)
  let matching_channels := data.channels.filter
    (fun ch => pyLower ch.channel_name == channel_lower)
  if matching_channels.isEmpty then
    let available := List.insertionSort strLeProp
      (data.channels.map (fun ch => ch.channel_name))
    let available_list :=
      if available.isEmpty then "none"
      else String.intercalate ", " (available.map (fun ch => "#" ++ ch))
    .error ("Channel '#" ++ channel ++ "' not found in '" ++ data.server_name ++
      "'. Available channels: " ++ available_list)
  else
    .ok { server_name := data.server_name
          server_id := data.server_id
          channels := matching_channels
          start_time := data.start_time
          end_time := data.end_time
          total_messages := (matching_channels.map (fun ch => ch.messages.length)).sum }

/-- The invariant claimed of `ServerDigestData`. -/
def digestInvariant (d : ServerDigestData) : Prop :=
  d.total_messages = (d.channels.map (fun ch => ch.messages.length)).sum

/-- Embeds `DiscordMessageFetcher._load_token` (lines 147-170): `None` or `""` is a
missing token; otherwise strip, then reject anything shorter than 50
characters. -/
def load_token (env_token : Option String) : Except String String :=
  match env_token with
  | none =>
    .error ("DISCORD_BOT_TOKEN environment variable is required. " ++
      "Set it in your .env file or environment.")
  | some token =>
    if token == "" then
      .error ("DISCORD_BOT_TOKEN environment variable is required. " ++
        "Set it in your .env file or environment.")
    else
      let token := pyStrip token
      if token.length < 50 then
        .error ("Invalid Discord bot token format. " ++
          "Token appears too short - please verify your DISCORD_BOT_TOKEN.")
      else .ok token

/-- The state `DiscordMessageFetcher.__init__` establishes that the claims
inspect: the validated token.  `__init__` performs no network activity;
it only validates the token and builds a client object. -/
structure DiscordMessageFetcher where
  token : String
deriving Repr, DecidableEq

/-- Embeds `DiscordMessageFetcher.__init__` (lines 124-140): `_load_token` runs
first, so an invalid token aborts construction before any connection
could be attempted (connections happen only in `fetch_server_messages`,
which needs a constructed fetcher). -/
def DiscordMessageFetcher.init (env_token : Option String) :
    Except String DiscordMessageFetcher :=
  (load_token env_token).map (fun t => { token := t })

/-- After the first digit of a Python decimal int literal: digits, with
single underscores allowed only between digits. -/
def pyIntRest : List Char → Bool
  | [] => true
  | ['_'] => false
  | '_' :: d :: ds => d.isDigit && pyIntRest ds
  | c :: cs => c.isDigit && pyIntRest cs

/-- The digit body accepted by Python `int(str)` after sign and whitespace:
nonempty, starts with a digit, single underscores only between digits. -/
def pyIntBody : List Char → Bool
  | [] => false
  | c :: cs => c.isDigit && pyIntRest cs

/-- Decimal value of a digit string (underscores already removed). -/
def digitsToNat : List Char → Nat → Nat
  | [], acc => acc
  | c :: cs, acc => digitsToNat cs (acc * 10 + (c.toNat - 48))

/-- Python `int(value)` on a string, base 10: strip surrounding whitespace,
optional single sign, then an underscore-separated digit body; `none`
models the `ValueError`. -/
def pyInt (s : String) : Option Int :=
  let cs := ((s.data.dropWhile Char.isWhitespace).reverse.dropWhile Char.isWhitespace).reverse
  let signed : Bool × List Char :=
    match cs with
    | '+' :: rest => (false, rest)
    | '-' :: rest => (true, rest)
    | rest => (false, rest)
  if pyIntBody signed.2 then
    let n : Int := Int.ofNat (digitsToNat (signed.2.filter (fun c => !(c == '_'))) 0)
    some (if signed.1 then -n else n)
  else none

/-- Embeds `_get_env_int` (lines 47-69): missing variable or unparsable value gives
the default; a parsed value outside `[min_val, max_val]` gives the
default; otherwise the parsed value.  Total: never raises. -/
def get_env_int (value : Option String) (default min_val max_val : Int) : Int :=
  match value with
  | none => default
  | some v =>
    match pyInt v with
    | none => default
    | some int_val =>
      if int_val < min_val || int_val > max_val then default else int_val

/-- Embeds `DiscordMessageFetcher.max_messages_per_channel` (lines 92-100), as a
function of the `DISCORD_CHAT_MAX_MESSAGES` environment value. -/
def max_messages_per_channel (env : Option String) : Int :=
  get_env_int env 1000 100 10000

/-- Embeds `DiscordMessageFetcher.max_concurrent_channels` (lines 102-110), as a
function of the `DISCORD_CHAT_MAX_CONCURRENT` environment value. -/
def max_concurrent_channels (env : Option String) : Int :=
  get_env_int env 5 1 20

/-- Embeds `DiscordMessageFetcher.operation_timeout` (lines 112-122), as a function
of the `DISCORD_CHAT_TIMEOUT` environment value.  The Python property
returns `float(...)` of this integer; the conversion is exact on
`[10, 300]` so the value is modelled as the integer. -/
def operation_timeout (env : Option String) : Int :=
  get_env_int env 60 10 300

/-- A concrete non-bot raw message with content, used as test input. -/
def sampleRaw : RawMessage :=
  { id := 1, author_name := "alice", author_bot := false, author_id := 7,
    content := "hi", created_at := "2024-01-01T00:00:00", attachments := [], reactions := [] }

/-! ### Helper lemmas -/

theorem charListLe_total : ∀ as bs : List Char, charListLe as bs = true ∨ charListLe bs as = true
  | [], _ => Or.inl rfl
  | _ :: _, [] => Or.inr rfl
  | a :: as, b :: bs => by
    by_cases h : a.toNat = b.toNat
    · rcases charListLe_total as bs with h1 | h1
      · exact Or.inl (by simp [charListLe, h, h1])
      · exact Or.inr (by simp [charListLe, h.symm, h1])
    · rcases Nat.lt_or_ge a.toNat b.toNat with h1 | h1
      · exact Or.inl (by simp [charListLe, h, h1])
      · have h2 : b.toNat ≠ a.toNat := fun e => h e.symm
        have h3 : b.toNat < a.toNat := Nat.lt_of_le_of_ne h1 h2
        exact Or.inr (by simp [charListLe, h2, h3])

theorem charListLe_trans : ∀ as bs cs : List Char,
    charListLe as bs = true → charListLe bs cs = true → charListLe as cs = true
  | [], _, _, _, _ => rfl
  | _ :: _, [], _, h1, _ => by simp [charListLe] at h1
  | _ :: _, _ :: _, [], _, h2 => by simp [charListLe] at h2
  | a :: as, b :: bs, c :: cs, h1, h2 => by
    simp only [charListLe] at h1 h2 ⊢
    by_cases e1 : a.toNat = b.toNat <;> by_cases e2 : b.toNat = c.toNat
    · rw [if_pos (e1.trans e2)]
      rw [if_pos e1] at h1
      rw [if_pos e2] at h2
      exact charListLe_trans as bs cs h1 h2
    · rw [if_neg e2] at h2
      have hbc : b.toNat < c.toNat := by simpa using h2
      have hac : a.toNat < c.toNat := by omega
      simp [show a.toNat ≠ c.toNat by omega, hac]
    · rw [if_neg e1] at h1
      have hab : a.toNat < b.toNat := by simpa using h1
      have hac : a.toNat < c.toNat := by omega
      simp [show a.toNat ≠ c.toNat by omega, hac]
    · rw [if_neg e1] at h1
      rw [if_neg e2] at h2
      have hab : a.toNat < b.toNat := by simpa using h1
      have hbc : b.toNat < c.toNat := by simpa using h2
      have hac : a.toNat < c.toNat := by omega
      simp [show a.toNat ≠ c.toNat by omega, hac]

theorem charToNat_inj {a b : Char} (h : a.toNat = b.toNat) : a = b :=
  Char.eq_of_val_eq (UInt32.ext h)

/-- The executable comparator agrees with the standard lexicographic order:
`charListLe as bs` holds exactly when `bs` is not lexicographically
smaller than `as` (with `List.lt`, the order underlying `String.le`). -/
theorem charListLe_iff_not_lt : ∀ as bs : List Char, charListLe as bs = true ↔ ¬ List.lt bs as
  | [], [] => ⟨fun _ h => (nomatch h), fun _ => rfl⟩
  | [], _ :: _ => ⟨fun _ h => (nomatch h), fun _ => rfl⟩
  | a :: as, [] => ⟨fun h => (nomatch h), fun h => absurd (List.lt.nil a as) h⟩
  | a :: as, b :: bs => by
    simp only [charListLe]
    by_cases e : a.toNat = b.toNat
    · have hab : a = b := charToNat_inj e
      subst hab
      rw [if_pos rfl, charListLe_iff_not_lt as bs]
      constructor
      · intro h hlt
        cases hlt with
        | head _ _ h2 => exact Nat.lt_irrefl _ h2
        | tail _ _ h3 => exact h h3
      · intro h hlt
        exact h (List.lt.tail (Nat.lt_irrefl a.toNat) (Nat.lt_irrefl a.toNat) hlt)
    · rw [if_neg e]
      simp only [decide_eq_true_eq]
      constructor
      · intro hlt h
        cases h with
        | head _ _ h2 => exact Nat.lt_asymm hlt h2
        | tail _ h2 _ => exact h2 hlt
      · intro h
        by_cases hba : b.toNat < a.toNat
        · exact absurd (List.lt.head bs as hba) h
        · omega

/-- The executable string comparator agrees with the standard order on
`String`. -/
theorem strLeB_iff_le (a b : String) : strLeB a b = true ↔ a ≤ b := by
  have h1 : strLeB a b = true ↔ ¬ List.lt b.data a.data := charListLe_iff_not_lt a.data b.data
  have hx : (b < a) ↔ List.lt b.data a.data :=
    String.lt_iff_toList_lt.trans (List.lt_iff_lex_lt b.data a.data).symm
  exact h1.trans ((not_congr hx).symm.trans not_lt)

/-- The fetch loop accumulates exactly the kept, transformed messages the
iterator yields before any exception. -/
theorem collectMessages_eq_filter : ∀ h : List HistoryItem,
    collectMessages h = ((deliveredBefore h).filter keepMessage).map transformMessage
  | [] => rfl
  | .msg m :: rest => by
    by_cases hk : keepMessage m <;>
      simp [collectMessages, deliveredBefore, List.filter_cons, hk,
        collectMessages_eq_filter rest]
  | .forbidden :: _ => rfl
  | .httpError _ :: _ => rfl

theorem mem_deliveredBefore : ∀ {h : List HistoryItem} {raw : RawMessage},
    raw ∈ deliveredBefore h → HistoryItem.msg raw ∈ h := by
  intro h
  induction h with
  | nil => intro raw hr; simp [deliveredBefore] at hr
  | cons item rest ih =>
    intro raw hr
    cases item with
    | msg m =>
      rcases List.mem_cons.mp hr with h1 | h1
      · exact h1 ▸ List.mem_cons_self _ _
      · exact List.mem_cons_of_mem _ (ih h1)
    | forbidden => simp [deliveredBefore] at hr
    | httpError s => simp [deliveredBefore] at hr

theorem strContainsSub_empty_needle (s : String) : strContainsSub s "" = true := by
  unfold strContainsSub
  cases hd : s.data with
  | nil => rfl
  | cons c cs => simp [occursInChars, startsWithChars]

/-- The first resolver loop: a first exact match is returned as is. -/
theorem find_server_ok_of_exact (server_name : String) (guilds : List Guild) (g : Guild)
    (h : guilds.find? (fun g => pyLower g.name == pyLower server_name) = some g) :
    find_server_by_name server_name guilds = .ok g := by
  simp [find_server_by_name, h]

/-- The second resolver loop: with no exact match anywhere, a first
substring match is returned. -/
theorem find_server_ok_of_partial (server_name : String) (guilds : List Guild)
    (h1 : guilds.find? (fun g => pyLower g.name == pyLower server_name) = none)
    (g : Guild)
    (h2 : guilds.find?
      (fun g => strContainsSub (pyLower g.name) (pyLower server_name)) = some g) :
    find_server_by_name server_name guilds = .ok g := by
  simp [find_server_by_name, h1, h2]

/-- The resolver failure path: no match at all raises `ServerNotFoundError`
listing the joined server names, or `None` when the join is empty. -/
theorem find_server_error_of_no_match (server_name : String) (guilds : List Guild)
    (h1 : guilds.find? (fun g => pyLower g.name == pyLower server_name) = none)
    (h2 : guilds.find?
      (fun g => strContainsSub (pyLower g.name) (pyLower server_name)) = none) :
    find_server_by_name server_name guilds =
      .error ("Server '" ++ server_name ++ "' not found. Available servers: " ++
        (if String.intercalate ", " (guilds.map (fun g => g.name)) = "" then "None"
         else String.intercalate ", " (guilds.map (fun g => g.name)))) := by
  simp [find_server_by_name, h1, h2]

/-! ### Claim theorems -/

/-- C2: for any channel and any history events delivered in arbitrary order,
the `messages` list of the `ChannelMessages` returned by the channel
fetcher is non-decreasing in the `timestamp` field (code-point
lexicographic order, as Python compares `str` sort keys). -/
theorem fetch_messages_sorted (channel : TextChannel) (history : List HistoryItem) :
    List.Pairwise (fun m1 m2 : Message => m1.timestamp ≤ m2.timestamp)
      (fetch_channel_messages channel history).messages := by
  haveI : IsTotal Message timestampLe := ⟨fun a b => charListLe_total _ _⟩
  haveI : IsTrans Message timestampLe := ⟨fun _ _ _ h1 h2 => charListLe_trans _ _ _ h1 h2⟩
  have hp : List.Pairwise timestampLe (fetch_channel_messages channel history).messages :=
    List.sorted_insertionSort timestampLe _
  exact hp.imp (fun h => (strLeB_iff_le _ _).mp h)

/-- C3: every message in the channel fetcher's output is the transform of
some delivered raw message that was not authored by a bot and had content
or attachments; bot messages and contentless, attachment-less messages
never appear. -/
theorem fetch_messages_filtered (channel : TextChannel) (history : List HistoryItem)
    (m : Message) (hm : m ∈ (fetch_channel_messages channel history).messages) :
    ∃ raw : RawMessage, HistoryItem.msg raw ∈ history ∧ raw.author_bot = false ∧
      ¬(raw.content = "" ∧ raw.attachments = []) ∧ m = transformMessage raw := by
  have hm2 : m ∈ collectMessages history :=
    (List.perm_insertionSort timestampLe (collectMessages history)).mem_iff.mp hm
  rw [collectMessages_eq_filter] at hm2
  rcases List.mem_map.mp hm2 with ⟨raw, hraw, heq⟩
  rcases List.mem_filter.mp hraw with ⟨hmem, hkeep⟩
  refine ⟨raw, mem_deliveredBefore hmem, ?_, ?_, heq.symm⟩
  · revert hkeep
    unfold keepMessage
    cases raw.author_bot <;> simp
  · revert hkeep
    unfold keepMessage
    intro hkeep hcontra
    rw [hcontra.1, hcontra.2] at hkeep
    simp at hkeep

/-- C3 witness: a concrete non-bot message with content appears in the
output and is certified by the theorem. -/
theorem fetch_messages_filtered_witness :
    ∃ raw : RawMessage,
      HistoryItem.msg raw ∈ [HistoryItem.msg sampleRaw] ∧
      raw.author_bot = false ∧ ¬(raw.content = "" ∧ raw.attachments = []) ∧
      transformMessage sampleRaw = transformMessage raw :=
  fetch_messages_filtered ⟨"general", 1⟩ [HistoryItem.msg sampleRaw]
    (transformMessage sampleRaw) (by decide)

/-- C7 counterexample: the claim says a channel on which the remote service
raises an HTTP error returns an empty `messages` list, but when the error
is raised after a valid message has already been yielded, the `except`
clause keeps the accumulated messages, so the list is non-empty. -/
theorem fetch_error_empty_counterexample :
    (fetch_channel_messages ⟨"general", 1⟩
      [HistoryItem.msg sampleRaw, HistoryItem.httpError "503 Service Unavailable"]).messages
      ≠ [] := by decide

/-- C7 (amended): a permission-denied or HTTP error on a channel never
propagates (the fetcher is total and returns a `ChannelMessages`); the
`messages` list consists of exactly the kept, transformed, sorted messages
delivered before the error — in particular it is empty whenever the error
is raised before any message is delivered. -/
theorem fetch_error_absorbed (channel : TextChannel) (history : List HistoryItem) :
    ((fetch_channel_messages channel history).messages =
        sortByTimestamp (((deliveredBefore history).filter keepMessage).map transformMessage))
    ∧ (history.head? = some HistoryItem.forbidden →
        (fetch_channel_messages channel history).messages = [])
    ∧ (∀ s, history.head? = some (HistoryItem.httpError s) →
        (fetch_channel_messages channel history).messages = []) := by
  refine ⟨?_, ?_, ?_⟩
  · show sortByTimestamp (collectMessages history) = _
    rw [collectMessages_eq_filter]
  · intro h
    cases history with
    | nil => simp at h
    | cons item rest =>
      simp only [List.head?_cons, Option.some.injEq] at h
      subst h
      rfl
  · intro s h
    cases history with
    | nil => simp at h
    | cons item rest =>
      simp only [List.head?_cons, Option.some.injEq] at h
      subst h
      rfl

/-- C7 witness: a channel whose history raises `Forbidden` immediately
yields an empty message list. -/
theorem fetch_error_absorbed_witness :
    (fetch_channel_messages ⟨"general", 1⟩ [HistoryItem.forbidden]).messages = [] :=
  (fetch_error_absorbed ⟨"general", 1⟩ [HistoryItem.forbidden]).2.1 rfl

/-- C4: the stored content is the original content exactly when it is at or
below 100,000 characters, and otherwise is exactly the first 100,000
characters followed by the fixed truncation marker. -/
theorem content_truncated (raw : RawMessage) :
    (transformMessage raw).content =
      if raw.content.length > MAX_MESSAGE_CONTENT_LENGTH then
        raw.content.take MAX_MESSAGE_CONTENT_LENGTH ++ "...[truncated]"
      else raw.content := rfl

/-- C5: attachments beyond the 10th are replaced by a single overflow
summary entry with the correct count; at most the first 20 reactions are
stored (emoji capped to 20 characters) with no summary entry for dropped
reactions. -/
theorem attachments_reactions_capped (raw : RawMessage) :
    ((transformMessage raw).attachments =
      if raw.attachments.length > 10 then
        raw.attachments.take 10 ++
          ["...and " ++ toString (raw.attachments.length - 10) ++ " more"]
      else raw.attachments)
    ∧ (transformMessage raw).reactions =
        (raw.reactions.take 20).map (fun r => { emoji := r.emoji.take 20, count := r.count })
    ∧ (transformMessage raw).reactions.length ≤ 20 := by
  refine ⟨?_, rfl, ?_⟩
  · show (if raw.attachments.length > 10 then
        raw.attachments.take 10 ++
          ["...and " ++ toString (raw.attachments.length - 10) ++ " more"]
      else raw.attachments.take 10) = _
    split
    · rfl
    · next hle => rw [List.take_of_length_le (by omega)]
  · show ((raw.reactions.take 20).map _).length ≤ 20
    rw [List.length_map, List.length_take]
    exact min_le_left _ _

/-- C6: the resolver returns the first case-insensitive exact match when one
exists (so an exact match wins even when a different server would
partial-match earlier in iteration order); only when no exact match
exists does it return the first case-insensitive substring match; when
neither exists it fails with a message listing all known server names
joined by a comma, or `None` when that listing is empty. -/
theorem find_server_match_priority (server_name : String) (guilds : List Guild) :
    (∀ g, guilds.find? (fun g => pyLower g.name == pyLower server_name) = some g →
        find_server_by_name server_name guilds = .ok g)
    ∧ (guilds.find? (fun g => pyLower g.name == pyLower server_name) = none →
        ∀ g, guilds.find?
            (fun g => strContainsSub (pyLower g.name) (pyLower server_name)) = some g →
          find_server_by_name server_name guilds = .ok g)
    ∧ (guilds.find? (fun g => pyLower g.name == pyLower server_name) = none →
        guilds.find?
            (fun g => strContainsSub (pyLower g.name) (pyLower server_name)) = none →
          find_server_by_name server_name guilds =
            .error ("Server '" ++ server_name ++ "' not found. Available servers: " ++
              (if String.intercalate ", " (guilds.map (fun g => g.name)) = "" then "None"
               else String.intercalate ", " (guilds.map (fun g => g.name))))) := by
  exact ⟨fun g h => find_server_ok_of_exact server_name guilds g h,
    fun h1 g h2 => find_server_ok_of_partial server_name guilds h1 g h2,
    fun h1 h2 => find_server_error_of_no_match server_name guilds h1 h2⟩

/-- C6 witness: with servers `Alpha Test` then `Test`, the name `test`
partial-matches `Alpha Test` first in iteration order, yet the exact
match `Test` is returned. -/
theorem find_server_match_priority_witness :
    find_server_by_name "test" [⟨"Alpha Test", 1⟩, ⟨"Test", 2⟩] = .ok ⟨"Test", 2⟩ :=
  (find_server_match_priority "test" [⟨"Alpha Test", 1⟩, ⟨"Test", 2⟩]).1
    ⟨"Test", 2⟩ (by decide)

/-- C10: resolving the empty string against a non-empty server list never
fails: every name contains the empty string, so the substring pass
returns the first server in iteration order — unless some server's
lowercased name is itself empty and exact-matches first. -/
theorem find_server_empty_name (guilds : List Guild) (hne : guilds ≠ []) :
    (∃ g, find_server_by_name "" guilds = .ok g)
    ∧ ((∀ g ∈ guilds, pyLower g.name ≠ "") →
        ∀ g0, guilds.head? = some g0 → find_server_by_name "" guilds = .ok g0) := by
  have hlow : pyLower "" = "" := rfl
  constructor
  · cases hfe : guilds.find? (fun g => pyLower g.name == pyLower "") with
    | some g => exact ⟨g, find_server_ok_of_exact "" guilds g hfe⟩
    | none =>
      cases guilds with
      | nil => exact absurd rfl hne
      | cons g0 gs =>
        refine ⟨g0, find_server_ok_of_partial "" (g0 :: gs) hfe g0 ?_⟩
        rw [List.find?_cons_of_pos]
        rw [hlow]
        exact strContainsSub_empty_needle _
  · intro hnames g0 h0
    cases guilds with
    | nil => simp at h0
    | cons ghead gs =>
      simp only [List.head?_cons, Option.some.injEq] at h0
      subst h0
      have hfe : (ghead :: gs).find? (fun g => pyLower g.name == pyLower "") = none := by
        rw [List.find?_eq_none]
        intro g hg
        rw [hlow]
        simpa using hnames g hg
      refine find_server_ok_of_partial "" (ghead :: gs) hfe ghead ?_
      rw [List.find?_cons_of_pos]
      rw [hlow]
      exact strContainsSub_empty_needle _

/-- C10 witness: the empty name resolves to the sole server `Alpha`. -/
theorem find_server_empty_name_witness :
    find_server_by_name "" [⟨"Alpha", 1⟩] = .ok ⟨"Alpha", 1⟩ :=
  (find_server_empty_name [⟨"Alpha", 1⟩] (by decide)).2 (by decide) ⟨"Alpha", 1⟩ rfl

/-- C1: `total_messages` equals the sum of the per-channel message counts
for both construction paths of `ServerDigestData`: the fetch orchestrator
(`_fetch_server_messages_impl`) and the digest command's post-hoc
filtering to a single named channel. -/
theorem total_messages_consistent (server_name : String) (server_id : Nat)
    (channel_results : List ChannelMessages) (st et : String)
    (data : ServerDigestData) (channel : String) (filtered : ServerDigestData)
    (h : filter_digest_to_channel data channel = .ok filtered) :
    digestInvariant (mk_server_digest_data server_name server_id channel_results st et)
    ∧ digestInvariant filtered := by
  constructor
  · rfl
  · simp only [filter_digest_to_channel] at h
    split at h
    · exact Except.noConfusion h
    · rw [Except.ok.injEq] at h
      subst h
      rfl

/-- C1 witness: both paths evaluated at a concrete server digest. -/
theorem total_messages_consistent_witness :
    digestInvariant (mk_server_digest_data "S" 1
      [⟨"gen", 10, [transformMessage sampleRaw]⟩, ⟨"dev", 11, []⟩] "t0" "t1")
    ∧ digestInvariant
      ⟨"S", 1, [⟨"gen", 10, [transformMessage sampleRaw]⟩], "t0", "t1", 1⟩ :=
  total_messages_consistent "S" 1
    [⟨"gen", 10, [transformMessage sampleRaw]⟩, ⟨"dev", 11, []⟩] "t0" "t1"
    (mk_server_digest_data "S" 1
      [⟨"gen", 10, [transformMessage sampleRaw]⟩, ⟨"dev", 11, []⟩] "t0" "t1")
    "#GEN"
    ⟨"S", 1, [⟨"gen", 10, [transformMessage sampleRaw]⟩], "t0", "t1", 1⟩
    (by decide)

/-- C8: when the credential is absent, empty, or shorter than 50 characters
after trimming, constructing the fetcher fails with a format error.  The
constructor performs no network activity, and no fetcher value exists on
the error path, so no connection can ever be attempted with such a
credential. -/
theorem token_validated_before_use (env_token : Option String)
    (h : env_token = none ∨
      ∃ t, env_token = some t ∧ (t = "" ∨ (pyStrip t).length < 50)) :
    ∃ e, DiscordMessageFetcher.init env_token = .error e := by
  rcases h with h | ⟨t, ht, h2⟩
  · subst h
    exact ⟨_, rfl⟩
  · subst ht
    rcases h2 with h2 | h2
    · subst h2
      exact ⟨_, rfl⟩
    · by_cases he : (t == "") = true
      · refine ⟨"DISCORD_BOT_TOKEN environment variable is required. " ++
          "Set it in your .env file or environment.", ?_⟩
        simp [DiscordMessageFetcher.init, load_token, he, Except.map]
      · refine ⟨"Invalid Discord bot token format. " ++
          "Token appears too short - please verify your DISCORD_BOT_TOKEN.", ?_⟩
        simp [DiscordMessageFetcher.init, load_token, he, h2, Except.map]

/-- C8 witness: a 10-character credential is rejected at construction. -/
theorem token_validated_before_use_witness :
    ∃ e, DiscordMessageFetcher.init (some "abcdefghij") = .error e :=
  token_validated_before_use (some "abcdefghij")
    (Or.inr ⟨"abcdefghij", rfl, Or.inr (by decide)⟩)

/-- C9: for each of the three tunables, a missing value yields the hardcoded
default, a non-numeric value yields the default, a parsed value outside
the documented range yields the default, and an in-range value is
returned as given.  All three lookups are total functions: they never
raise. -/
theorem env_tunables_fall_back (s : String) :
    (max_messages_per_channel none = 1000 ∧ max_concurrent_channels none = 5 ∧
      operation_timeout none = 60)
    ∧ (pyInt s = none →
        max_messages_per_channel (some s) = 1000 ∧ max_concurrent_channels (some s) = 5 ∧
          operation_timeout (some s) = 60)
    ∧ (∀ n : Int, pyInt s = some n →
        ((n < 100 ∨ 10000 < n) → max_messages_per_channel (some s) = 1000)
        ∧ (100 ≤ n → n ≤ 10000 → max_messages_per_channel (some s) = n)
        ∧ ((n < 1 ∨ 20 < n) → max_concurrent_channels (some s) = 5)
        ∧ (1 ≤ n → n ≤ 20 → max_concurrent_channels (some s) = n)
        ∧ ((n < 10 ∨ 300 < n) → operation_timeout (some s) = 60)
        ∧ (10 ≤ n → n ≤ 300 → operation_timeout (some s) = n)) := by
  refine ⟨⟨rfl, rfl, rfl⟩, ?_, ?_⟩
  · intro h
    refine ⟨?_, ?_, ?_⟩ <;>
      simp [max_messages_per_channel, max_concurrent_channels, operation_timeout,
        get_env_int, h]
  · intro n h
    refine ⟨?_, ?_, ?_, ?_, ?_, ?_⟩ <;>
      · intro h1
        first
        | (simp only [max_messages_per_channel, max_concurrent_channels,
            operation_timeout, get_env_int, h]
           split <;>
             first
             | rfl
             | (simp only [Bool.or_eq_true, decide_eq_true_eq] at *; omega))
        | (intro h2
           simp only [max_messages_per_channel, max_concurrent_channels,
             operation_timeout, get_env_int, h]
           split <;>
             first
             | rfl
             | (simp only [Bool.or_eq_true, decide_eq_true_eq] at *; omega))

/-- C9 witness: a non-numeric value falls back to every default, and the
in-range value 500 is returned as given for the message cap. -/
theorem env_tunables_fall_back_witness :
    (max_messages_per_channel (some "soon") = 1000 ∧
      max_concurrent_channels (some "soon") = 5 ∧ operation_timeout (some "soon") = 60)
    ∧ max_messages_per_channel (some "500") = 500 :=
  ⟨(env_tunables_fall_back "soon").2.1 (by decide),
    ((env_tunables_fall_back "500").2.2 500 (by decide)).2.1 (by decide) (by decide)⟩

end DiscordChat
